import Mathlib

/-!
Verification of the `FrenchDeck` card-deck module
(`src/data_structures/card_deck.py`).

The module defines an immutable value record `Card` (rank, suit), a deck
built once by a nested comprehension, Python sequence access
(`__len__`, `__getitem__` with negative indices and slices), and a ranking
function `spades_high`.  Fallible Python operations (`list.index`,
`dict[...]`, out-of-range indexing) are embedded as `Option`-returning
functions: `none` stands for the raised exception.
-/

/-- `Card = collections.namedtuple('Card', ['rank', 'suit'])`:
an immutable record with structural equality. -/
structure Card where
  rank : String
  suit : String
deriving DecidableEq, Repr, Inhabited

namespace FrenchDeck

/-- `ranks = [str(n) for n in range(2, 11)] + list('JQKA')` -/
def ranks : List String := (List.range' 2 9).map (fun n => toString n) ++ ["J", "Q", "K", "A"]

/-- `suits = 'spades diamonds clubs hearts'.split()`: the split of the
literal on whitespace, written out (string `split` is opaque to kernel
reduction). -/
def suits : List String := ["spades", "diamonds", "clubs", "hearts"]

/-- `suit_values = dict(spades=3, hearts=2, diamonds=1, clubs=0)`,
embedded as an association list in the dict's literal order. -/
def suit_values : List (String × Nat) :=
  [("spades", 3), ("hearts", 2), ("diamonds", 1), ("clubs", 0)]

/-- `self._cards = [Card(rank, suit) for suit in self.suits for rank in self.ranks]`:
outer loop over suits, inner loop over ranks. -/
def _cards : List Card := suits.flatMap (fun suit => ranks.map (fun rank => ⟨rank, suit⟩))

/-- `__len__`: `len(self._cards)`. -/
def deckLen : Nat := _cards.length

/-- Python integer indexing `l[i]`: a negative index counts from the end
(`i + len(l)`); an index that is still out of range raises `IndexError`
(here `none`). -/
def pyAt (l : List Card) (i : Int) : Option Card :=
  let j : Int := if i < 0 then i + l.length else i
  if j < 0 then none else l.get? j.toNat

/-- Python slice-bound normalisation for `l[start:stop]` (step 1): a
negative bound is shifted by the length, then both bounds are clamped to
`[0, len]`. -/
def sliceNorm (len : Nat) (i : Int) : Nat :=
  if i < 0 then (i + len).toNat else min i.toNat len

/-- Python slicing `l[start:stop]` (step 1): never raises, clamps the
normalised bounds, and returns the half-open range. -/
def pySlice (l : List Card) (start stop_ : Int) : List Card :=
  let a := sliceNorm l.length start
  let b := sliceNorm l.length stop_
  (l.drop a).take (b - a)

/-- `spades_high(card)`:
`rank_value = FrenchDeck.ranks.index(card.rank)` (raises `ValueError` on an
unknown rank, here `none`), then
`rank_value * len(self.suit_values) + self.suit_values[card.suit]`
(raises `KeyError` on an unknown suit, here `none`). -/
def spades_high (card : Card) : Option Nat :=
  match ranks.findIdx? (fun r => r == card.rank), suit_values.lookup card.suit with
  | some rank_value, some sv => some (rank_value * suit_values.length + sv)
  | _, _ => none

/-- Forward iteration over the deck: Python's sequence-iteration protocol
reads `l[0], l[1], ...` until `IndexError`. -/
def iterSeq (l : List Card) : List Card :=
  (List.range l.length).filterMap (fun i => pyAt l (i : Int))

/-- `reversed(deck)`: the reversed-iteration protocol reads
`l[len-1], ..., l[0]` via `__len__` and `__getitem__`. -/
def revIterSeq (l : List Card) : List Card :=
  (List.range l.length).filterMap (fun i => pyAt l ((l.length : Int) - 1 - i))

end FrenchDeck

namespace SpecSide

/-- Suit weights exactly as the spec words them:
spades=3, hearts=2, diamonds=1, clubs=0 (any other suit unreachable in the
claims, mapped to 0). -/
def specSuitWeight (s : String) : Nat :=
  if s = "spades" then 3
  else if s = "hearts" then 2
  else if s = "diamonds" then 1
  else 0

end SpecSide

open FrenchDeck SpecSide

/-- The class attributes evaluate to the literal lists the spec names. -/
theorem ranks_eval :
    ranks = ["2", "3", "4", "5", "6", "7", "8", "9", "10", "J", "Q", "K", "A"] := by
  decide

/-- The suit list evaluates to the four suits in declared order. -/
theorem suits_eval : suits = ["spades", "diamonds", "clubs", "hearts"] := by
  decide

/-- Helper: `spades_high` on every in-domain card equals the spec's formula
`index_of(rank) * 4 + suit_weight(suit)` (checked over the finite domains). -/
theorem spades_high_formula_aux :
    ∀ r ∈ ranks, ∀ s ∈ suits,
      spades_high ⟨r, s⟩ = some (ranks.indexOf r * 4 + specSuitWeight s) := by
  decide

/-- C1: the fresh deck enumerates suits in outer order
[spades, diamonds, clubs, hearts] and ranks in inner order [2..10,J,Q,K,A]:
`at(0)`, `at(12)`, `at(13)`, `at(51)` are the stated cards and the first 13
elements are the spades in ascending rank order. -/
theorem deck_enumeration_order :
    pyAt _cards 0 = some ⟨"2", "spades"⟩ ∧
    pyAt _cards 12 = some ⟨"A", "spades"⟩ ∧
    pyAt _cards 13 = some ⟨"2", "diamonds"⟩ ∧
    pyAt _cards 51 = some ⟨"A", "hearts"⟩ ∧
    _cards.take 13 = ranks.map (fun r => ⟨r, "spades"⟩) := by
  decide

/-- C2: a fresh deck has size 52, holds no duplicate card, and contains
every (rank, suit) combination exactly once. -/
theorem deck_size_and_completeness :
    deckLen = 52 ∧ _cards.Nodup ∧
    ∀ c : Card, c.rank ∈ ranks → c.suit ∈ suits → List.count c _cards = 1 := by
  refine ⟨by decide, by decide, ?_⟩
  intro c h1 h2
  have hmem : c ∈ _cards := by
    obtain ⟨r, s⟩ := c
    simp only [_cards, List.mem_flatMap, List.mem_map]
    exact ⟨s, h2, r, h1, rfl⟩
  exact List.count_eq_one_of_mem (by decide) hmem

/-- Witness for C2 at the concrete card (2, spades). -/
theorem deck_size_and_completeness_witness :
    List.count (⟨"2", "spades"⟩ : Card) _cards = 1 :=
  deck_size_and_completeness.2.2 ⟨"2", "spades"⟩ (by decide) (by decide)

/-- C3: for every card with recognized rank and suit, `spades_high` equals
`index_of(rank, ranks) * 4 + suit_weight(suit)` (spades=3, hearts=2,
diamonds=1, clubs=0); the four corner cases take values 0, 3, 48, 51, and
51 is the maximum over the whole deck. -/
theorem spades_high_formula :
    (∀ c : Card, c.rank ∈ ranks → c.suit ∈ suits →
        spades_high c = some (ranks.indexOf c.rank * 4 + specSuitWeight c.suit)) ∧
    spades_high ⟨"2", "clubs"⟩ = some 0 ∧
    spades_high ⟨"2", "spades"⟩ = some 3 ∧
    spades_high ⟨"A", "clubs"⟩ = some 48 ∧
    spades_high ⟨"A", "spades"⟩ = some 51 ∧
    ∀ c ∈ _cards, spades_high c ≠ none ∧ (spades_high c).getD 0 ≤ 51 := by
  refine ⟨?_, by decide, by decide, by decide, by decide, by decide⟩
  intro c h1 h2
  obtain ⟨r, s⟩ := c
  exact spades_high_formula_aux r h1 s h2

/-- Witness for C3 at the concrete card (K, hearts). -/
theorem spades_high_formula_witness :
    spades_high ⟨"K", "hearts"⟩ =
      some (ranks.indexOf "K" * 4 + specSuitWeight "hearts") :=
  spades_high_formula.1 ⟨"K", "hearts"⟩ (by decide) (by decide)

/-- C4 counterexample: at position 52 the absolute value does not exceed the
collection length 52, yet `at(52)` raises (returns no Card), contradicting
"returns a Card without error for every other position". -/
theorem at_error_claim_counterexample :
    pyAt _cards 52 = none ∧ (52 : Int).natAbs ≤ 52 := by
  decide

/-- C4 (amended): `at(position)` fails with an out-of-range error exactly
when position ≥ 52 or position < -52; it returns a Card for every position
in [-52, 51]. -/
theorem at_error_iff :
    ∀ p : Int, pyAt _cards p = none ↔ (52 ≤ p ∨ p < -52) := by
  intro p
  have hlen : _cards.length = 52 := by decide
  simp only [pyAt, hlen]
  split_ifs with h1 h2
  · simp only [true_iff]
    omega
  · rw [List.get?_eq_none, hlen]
    omega
  · rw [List.get?_eq_none, hlen]
    omega

/-- C5: `rankValue` fails with an invalid-input error exactly when the
card's rank is outside the 13 recognized ranks or its suit is outside the 4
recognized suits; on every recognized pair it returns normally. -/
theorem spades_high_error_iff :
    ∀ c : Card, spades_high c = none ↔ (c.rank ∉ ranks ∨ c.suit ∉ suits) := by
  intro c
  obtain ⟨r, s⟩ := c
  simp only [spades_high]
  cases h1 : ranks.findIdx? (fun x => x == r) with
  | none =>
    rw [List.findIdx?_eq_none_iff] at h1
    have hr : r ∉ ranks := by
      intro hmem
      have := h1 r hmem
      simp at this
    simp [hr]
  | some i =>
    have hr : r ∈ ranks := by
      have h3 : (ranks.findIdx? (fun x => x == r)).isSome := by rw [h1]; rfl
      rw [List.findIdx?_isSome, List.any_eq_true] at h3
      obtain ⟨x, hx, hbx⟩ := h3
      rwa [eq_of_beq hbx] at hx
    cases h2 : suit_values.lookup s with
    | none =>
      rw [List.lookup_eq_none_iff] at h2
      have hs : s ∉ suits := by
        intro hmem
        have h2a := h2 ("spades", 3) (by simp [suit_values])
        have h2b := h2 ("hearts", 2) (by simp [suit_values])
        have h2c := h2 ("diamonds", 1) (by simp [suit_values])
        have h2d := h2 ("clubs", 0) (by simp [suit_values])
        simp only [suits, List.mem_cons, List.not_mem_nil, or_false] at hmem
        rcases hmem with rfl | rfl | rfl | rfl <;> simp_all
      simp [hs]
    | some v =>
      have hs : s ∈ suits := by
        have h3 : (suit_values.lookup s).isSome := by rw [h2]; rfl
        rw [List.lookup_isSome_iff] at h3
        obtain ⟨q, hq, hqs⟩ := h3
        have hsq : s = q.1 := eq_of_beq hqs
        simp only [suit_values, List.mem_cons, List.not_mem_nil, or_false] at hq
        rcases hq with rfl | rfl | rfl | rfl <;> (subst hsq; decide)
      simp [hr, hs]

/-- C6: `slice(start, stop)` returns exactly the elements of the half-open
range with Python's normalised, clamped bounds, and `slice(5,8)` returns
exactly the 3 elements `[at(5), at(6), at(7)]`. -/
theorem slice_spec :
    (∀ start stop_ : Int, ∀ i : Nat,
        (pySlice _cards start stop_).get? i =
          if i < sliceNorm 52 stop_ - sliceNorm 52 start then
            _cards.get? (sliceNorm 52 start + i)
          else none) ∧
    (pySlice _cards 5 8).length = 3 ∧
    (pySlice _cards 5 8).map some = [pyAt _cards 5, pyAt _cards 6, pyAt _cards 7] := by
  refine ⟨?_, by decide, by decide⟩
  intro start stop_ i
  have hlen : _cards.length = 52 := by decide
  simp only [pySlice, hlen]
  by_cases h : i < sliceNorm 52 stop_ - sliceNorm 52 start
  · rw [List.get?_take h, List.get?_drop, if_pos h]
  · rw [List.get?_take_eq_none (Nat.le_of_not_lt h), if_neg h]

/-- C7: over the 52 deck cards, `spades_high` is defined and injective;
a strictly higher rank (later in the rank order) gives a strictly higher
value regardless of suit; among equal ranks the value order is exactly the
suit-weight order spades(3) > hearts(2) > diamonds(1) > clubs(0). -/
theorem spades_high_total_order :
    ∀ c1 ∈ _cards, ∀ c2 ∈ _cards,
      (spades_high c1).isSome = true ∧
      (spades_high c1 = spades_high c2 → c1 = c2) ∧
      (ranks.indexOf c1.rank < ranks.indexOf c2.rank →
        (spades_high c1).getD 0 < (spades_high c2).getD 0) ∧
      (c1.rank = c2.rank →
        ((spades_high c1).getD 0 < (spades_high c2).getD 0 ↔
          specSuitWeight c1.suit < specSuitWeight c2.suit)) := by
  decide

/-- Witness for C7 at the concrete cards (2, spades) and (3, hearts). -/
theorem spades_high_total_order_witness :
    (spades_high ⟨"2", "spades"⟩).isSome = true ∧
    (spades_high ⟨"2", "spades"⟩ = spades_high ⟨"3", "hearts"⟩ →
      (⟨"2", "spades"⟩ : Card) = ⟨"3", "hearts"⟩) ∧
    (ranks.indexOf "2" < ranks.indexOf "3" →
      (spades_high ⟨"2", "spades"⟩).getD 0 < (spades_high ⟨"3", "hearts"⟩).getD 0) ∧
    ("2" = "3" →
      ((spades_high ⟨"2", "spades"⟩).getD 0 < (spades_high ⟨"3", "hearts"⟩).getD 0 ↔
        specSuitWeight "spades" < specSuitWeight "hearts")) :=
  spades_high_total_order ⟨"2", "spades"⟩ (by decide) ⟨"3", "hearts"⟩ (by decide)

/-- C8: `at` supports negative positions counting from the end:
`at(-k) = at(52-k)` for 1 ≤ k ≤ 52, and `at(-1)` is the last card,
(A, hearts). -/
theorem at_negative_positions :
    (∀ k : Int, 1 ≤ k → k ≤ 52 → pyAt _cards (-k) = pyAt _cards (52 - k)) ∧
    pyAt _cards (-1) = some ⟨"A", "hearts"⟩ := by
  refine ⟨?_, by decide⟩
  intro k hk1 hk2
  have hlen : _cards.length = 52 := by decide
  simp only [pyAt, hlen]
  split_ifs <;> first | rfl | omega | (congr 1; omega)

/-- Witness for C8 at k = 2. -/
theorem at_negative_positions_witness :
    pyAt _cards (-2) = pyAt _cards (52 - 2) :=
  at_negative_positions.1 2 (by decide) (by decide)

/-- C9: reverse iteration yields exactly the reverse of forward iteration,
and its i-th element is the (51-i)-th element of the forward traversal. -/
theorem reverse_iteration_spec :
    revIterSeq _cards = (iterSeq _cards).reverse ∧
    ∀ i : Nat, i < 52 →
      (revIterSeq _cards).get? i = (iterSeq _cards).get? (51 - i) := by
  exact ⟨by decide, by decide⟩

/-- Witness for C9 at i = 0. -/
theorem reverse_iteration_spec_witness :
    (revIterSeq _cards).get? 0 = (iterSeq _cards).get? (51 - 0) :=
  reverse_iteration_spec.2 0 (by decide)

/-- A second, independently constructed deck instance: a fresh
`FrenchDeck()` runs the same `__init__` body over the same class
attributes. -/
def _cards_snd : List Card :=
  suits.flatMap (fun suit => ranks.map (fun rank => ⟨rank, suit⟩))

/-- C10: construction is deterministic: two independently constructed
instances agree element-wise, so `size`, `at`, `slice` (and `rankValue`,
which reads only the shared class attributes) return identical results on
either instance. -/
theorem deck_construction_deterministic :
    _cards_snd.length = _cards.length ∧
    (∀ i : Nat, _cards_snd.get? i = _cards.get? i) ∧
    (∀ i : Int, pyAt _cards_snd i = pyAt _cards i) ∧
    (∀ s t : Int, pySlice _cards_snd s t = pySlice _cards s t) :=
  ⟨rfl, fun _ => rfl, fun _ => rfl, fun _ _ => rfl⟩
